import Mathlib

/-!
Verification of the semantic-analysis core of the uC compiler frontend
(source files ucbase.py, uctypes.py, ucfunctions.py, ucstmt.py, ucexpr.py,
ucerror.py).

The Python code is shallowly embedded: Python objects become values,
in-place mutation becomes explicit state passing, and the process-wide
error counter of ucerror.error is threaded as a Nat (or, where an error's
cited source line matters, as a List Nat of cited positions).  Types are
interned by the global environment (the creator-token discipline in
uctypes.Type), so Python object identity on types is modelled by
structural equality of the Ty values below.
-/

namespace UCSpec

/-- uC types (uctypes.py): primitive types, array types (with their element
type), user-defined struct types (identified by their declared name), and
the UncomputedType sentinel singleton. -/
inductive Ty where
  | prim (name : String)
  | arr (elem : Ty)
  | user (name : String)
  | uncomputed
deriving DecidableEq, Repr

/-- PrimitiveType.__integral_typenames. -/
def integralTypenames : List String := ["int", "long"]

/-- PrimitiveType.__numerical_typenames (the integral names together with
double). -/
def numericalTypenames : List String := ["int", "long", "double"]

/-- PrimitiveType.__numerical_conversions: the declared widening pairs. -/
def numericalConversions : List (String × String) :=
  [("int", "long"), ("int", "double"), ("long", "double")]

/-- Type.is_numeric returns False; PrimitiveType.is_numeric overrides it by
membership of the name in the numerical type names. -/
def Ty.is_numeric : Ty → Bool
  | .prim a => numericalTypenames.contains a
  | _ => false

/-- Type.is_integral returns False; PrimitiveType.is_integral overrides it
by membership of the name in the integral type names. -/
def Ty.is_integral : Ty → Bool
  | .prim a => integralTypenames.contains a
  | _ => false

/-- Type.is_convertible_to: object identity (self is other).
PrimitiveType.is_convertible_to adds the widening pairs of
__numerical_conversions and null being convertible to any ArrayType or
UserType.  ArrayType, UserType and UncomputedType inherit the base method. -/
def Ty.is_convertible_to (self other : Ty) : Bool :=
  match self with
  | .prim a =>
      decide (self = other)
      || (match other with
          | .prim b => numericalConversions.contains (a, b)
          | _ => false)
      || (decide (a = "null")
          && (match other with
              | .arr _ => true
              | .user _ => true
              | _ => false))
  | _ => decide (self = other)

/-- ArrayType.check_args (uctypes.py): each argument's already-computed
get_type() value (given here directly as a Ty) is compared by identity
against the element type; on the first mismatch the function reports one
error and returns False.  If every argument matches, the loop falls off
the end and the function implicitly returns Python None (modelled as
Option.none).  The result is the returned value paired with the number of
errors reported. -/
def ArrayType_check_args (elem_type : Ty) : List Ty → Option Bool × Nat
  | [] => (none, 0)
  | a :: rest =>
      if a = elem_type then ArrayType_check_args elem_type rest
      else (some false, 1)

/-- Number of arguments whose type differs from the element type; the count
of mismatches that a per-argument reporting policy would diagnose. -/
def mismatchCount (elem_type : Ty) (args : List Ty) : Nat :=
  (args.filter (fun a => a ≠ elem_type)).length

/-- A uC type object's array-type cache: the _array_type slot set in
Type.__init__ to None, filled by the array_type property.  The cached
array-type object is identified by the Nat id it received at creation. -/
structure TyObj where
  arrayCache : Option Nat
deriving DecidableEq, Repr

/-- Allocation state: the id handed to the next ArrayType object created. -/
structure TyAlloc where
  nextId : Nat
deriving DecidableEq, Repr

/-- Type.array_type property: if not self._array_type (None is falsy, an
ArrayType instance is always truthy), a new ArrayType is created and
cached; the cached object is returned.  Returns the updated receiver, the
updated allocator, and the id of the returned array-type object. -/
def Type_array_type (self : TyObj) (alloc : TyAlloc) : TyObj × TyAlloc × Nat :=
  match self.arrayCache with
  | some i => (self, alloc, i)
  | none =>
      (⟨some alloc.nextId⟩, ⟨alloc.nextId + 1⟩, alloc.nextId)

/-- Outcome of a Python call that can raise: either a returned value or an
uncaught AttributeError. -/
inductive PyRes (α : Type) where
  | ok (v : α)
  | attrError
deriving DecidableEq, Repr

/-- FieldDeclNode (ucbase.py): carries a type name and a name.  Crucially,
neither FieldDeclNode nor its base ASTNode defines a get_type method. -/
structure FieldDeclM where
  fieldName : String
deriving DecidableEq, Repr

/-- The part of StructDeclNode that UserType.check_args reads: its type
attribute (set by find_decls to the UserType of the declaration). -/
structure StructDeclM where
  declType : Ty
deriving DecidableEq, Repr

/-- A UserType object (uctypes.py): decl is the StructDeclNode, fields its
fielddecls; typeAttr models the attribute named type that check_args sets
on the receiver (absent on a freshly created UserType). -/
structure UserTypeM where
  decl : StructDeclM
  fields : List FieldDeclM
  typeAttr : Option Ty
deriving DecidableEq, Repr

/-- UserType.check_args (uctypes.py): a zero-argument call returns True at
once; otherwise the receiver's type attribute is set to self.decl.type
first, then the arity is checked (one error, return False on mismatch).
When the arity matches (and args is nonempty, so fields is nonempty too),
the per-position loop evaluates self.fields[0].get_type() — a method that
FieldDeclNode does not have — raising AttributeError.  Returns the updated
receiver, the call outcome, and the number of errors reported. -/
def UserType_check_args (self : UserTypeM) (args : List Ty) :
    UserTypeM × PyRes Bool × Nat :=
  if args.length = 0 then (self, .ok true, 0)
  else
    let self1 : UserTypeM := { self with typeAttr := some self.decl.declType }
    if self.fields.length ≠ args.length then (self1, .ok false, 1)
    else (self1, .attrError, 0)

/-- Association lookup in a name-keyed table (a Python dict keyed by
strings, in insertion order). -/
def lookupA {α : Type} : List (String × α) → String → Option α
  | [], _ => none
  | (k, v) :: rest, name => if k = name then some v else lookupA rest name

/-- VarEnv (ucbase.py): a lexical environment with the two name-keyed dicts
__var_types and __var_positions (always updated together, so modelled as a
single table name → (position, type)) and an optional parent environment.
top models VarEnv(None, global_env); nest models VarEnv(parent, global_env). -/
inductive VarEnvM where
  | top (vars : List (String × Nat × Ty))
  | nest (vars : List (String × Nat × Ty)) (parent : VarEnvM)
deriving DecidableEq, Repr

/-- The environment's own table (__var_types / __var_positions). -/
def VarEnvM.ownVars : VarEnvM → List (String × Nat × Ty)
  | .top vs => vs
  | .nest vs _ => vs

/-- VarEnv.get_line_number: the defining position of name if it exists in
this environment or any ancestor; the Python -1 sentinel is modelled as
none. -/
def VarEnvM.get_line_number : VarEnvM → String → Option Nat
  | .top vs, name =>
      match lookupA vs name with
      | some pt => some pt.1
      | none => none
  | .nest vs p, name =>
      match lookupA vs name with
      | some pt => some pt.1
      | none => p.get_line_number name

/-- VarEnv.contains. -/
def VarEnvM.containsName (env : VarEnvM) (name : String) : Bool :=
  (env.get_line_number name).isSome

/-- VarEnv.add_variable: if the name is already bound anywhere in the
active chain, report one redeclaration error citing the previous line and
bind nothing; otherwise bind name → (position, type) in this environment
only.  The second component lists the cited previous lines of the errors
reported. -/
def VarEnvM.add_variable (env : VarEnvM) (position : Nat) (name : String)
    (var_type : Ty) : VarEnvM × List Nat :=
  match env.get_line_number name with
  | some previous_line => (env, [previous_line])
  | none =>
      match env with
      | .top vs => (.top ((name, position, var_type) :: vs), [])
      | .nest vs p => (.nest ((name, position, var_type) :: vs) p, [])

/-- GlobalEnv.lookup_type with strict=True: a missing name reports one
error and falls back to the builtin int entry of the table (always present
after add_builtin_types; structurally Ty.prim "int").  Returns the type
and the number of errors reported. -/
def GlobalEnv_lookup_type (types : List (String × Ty)) (name : String) :
    Ty × Nat :=
  match lookupA types name with
  | some t => (t, 0)
  | none =>
      (match lookupA types "int" with
       | some t => t
       | none => Ty.prim "int", 1)

/-- VarEnv.get_type: the type bound in this environment if present, else
the parent's answer; at the root with no match, one undefined-variable
error is reported and the global int type is returned. -/
def VarEnvM.get_type (genvTypes : List (String × Ty)) :
    VarEnvM → String → Ty × Nat
  | .top vs, name =>
      match lookupA vs name with
      | some pt => (pt.2, 0)
      | none =>
          let r := GlobalEnv_lookup_type genvTypes "int"
          (r.1, r.2 + 1)
  | .nest vs p, name =>
      match lookupA vs name with
      | some pt => (pt.2, 0)
      | none => VarEnvM.get_type genvTypes p name

/-- The AST declaration node data that GlobalEnv.add_type / add_function
read: an identity for the declaration node and the position of its name
(UserType and UserFunction both store decl.name.position). -/
structure DeclRef where
  declId : Nat
  namePos : Nat
deriving DecidableEq, Repr

/-- A type or function object held in the global environment's tables: its
object identity (creation id), its stored position, and the declaration it
is bound to.  Builtin entries have no declaration node. -/
structure GObj where
  oid : Nat
  pos : Nat
  declId : Option Nat
deriving DecidableEq, Repr

/-- GlobalEnv's two tables (name → type object, name → function object)
plus the creation counter that gives each newly created object a fresh
identity. -/
structure GEnvC5 where
  typesT : List (String × GObj)
  funcsT : List (String × GObj)
  nextOid : Nat
deriving DecidableEq, Repr

/-- All object identities stored in the two tables. -/
def GEnvC5.oids (env : GEnvC5) : List Nat :=
  env.typesT.map (fun kv => kv.2.oid) ++ env.funcsT.map (fun kv => kv.2.oid)

/-- Well-formedness of the creation counter: every stored object was
created earlier, so its identity is below nextOid. -/
def GEnvC5.WF (env : GEnvC5) : Prop :=
  ∀ o ∈ env.oids, o < env.nextOid

/-- GlobalEnv.add_type: a fresh UserType bound to the new declaration is
created first; if the name already has an entry, one redefinition error is
reported citing the prior declaration's stored position and the table is
left unchanged; otherwise the fresh object is inserted.  In every case the
fresh object is returned.  Result: updated environment, returned object,
and the list of cited positions of the errors reported. -/
def GlobalEnv_add_type (env : GEnvC5) (decl : DeclRef) (name : String) :
    GEnvC5 × GObj × List Nat :=
  let fresh : GObj := ⟨env.nextOid, decl.namePos, some decl.declId⟩
  match lookupA env.typesT name with
  | some old =>
      ({ env with nextOid := env.nextOid + 1 }, fresh, [old.pos])
  | none =>
      ({ env with typesT := env.typesT ++ [(name, fresh)],
                  nextOid := env.nextOid + 1 }, fresh, [])

/-- GlobalEnv.add_function: same discipline as add_type, on the function
table (a fresh UserFunction is created first, the table keeps the prior
entry on collision, one redefinition error cites the prior position). -/
def GlobalEnv_add_function (env : GEnvC5) (decl : DeclRef) (name : String) :
    GEnvC5 × GObj × List Nat :=
  let fresh : GObj := ⟨env.nextOid, decl.namePos, some decl.declId⟩
  match lookupA env.funcsT name with
  | some old =>
      ({ env with nextOid := env.nextOid + 1 }, fresh, [old.pos])
  | none =>
      ({ env with funcsT := env.funcsT ++ [(name, fresh)],
                  nextOid := env.nextOid + 1 }, fresh, [])

/-- Statement AST for the basic control-flow pass (ucstmt.py).  Statement
lists are encoded as consB / nilB chains; blockB wraps such a chain, and a
while/for body is a block node.  Only the node kinds with basic_control
behaviour relevant to break/continue are included; every other statement
kind inherits the generic child recursion of ucbase.ASTNode.basic_control,
which reports nothing. -/
inductive StmtB where
  | blockB (statements : StmtB)
  | whileB (body : StmtB)
  | forB (body : StmtB)
  | breakB
  | continueB
  | consB (head tail : StmtB)
  | nilB
deriving DecidableEq, Repr

/-- The phase context as the basic control-flow pass sees it: the optional
in_loop entry of the context's info dictionary (none when the key is
absent) and the error counter. -/
structure BCtx where
  in_loop : Option Bool
  errors : Nat
deriving DecidableEq, Repr

/-- basic_control (ucstmt.py): BlockNode folds over its statements;
WhileNode and ForNode set in_loop to True around the body and to False
afterwards; BreakNode and ContinueNode first report an error if in_loop is
present and False, and then report an error unconditionally (the
unguarded error call after the if in the source). -/
def basic_control_b : StmtB → BCtx → BCtx
  | .blockB ss, ctx => basic_control_b ss ctx
  | .whileB body, ctx =>
      let ctx1 := basic_control_b body { ctx with in_loop := some true }
      { ctx1 with in_loop := some false }
  | .forB body, ctx =>
      let ctx1 := basic_control_b body { ctx with in_loop := some true }
      { ctx1 with in_loop := some false }
  | .breakB, ctx =>
      let guarded := match ctx.in_loop with
        | some false => 1
        | _ => 0
      { ctx with errors := ctx.errors + guarded + 1 }
  | .continueB, ctx =>
      let guarded := match ctx.in_loop with
        | some false => 1
        | _ => 0
      { ctx with errors := ctx.errors + guarded + 1 }
  | .consB h t, ctx => basic_control_b t (basic_control_b h ctx)
  | .nilB, ctx => ctx

/-- AST for the lexical-scope threading of the phase context (ucbase.py and
ucstmt.py).  Node lists are consScope / nilScope chains.  A block carries
its stored local_env attribute (the id of the VarEnv assigned by
check_names; 0 stands for the class-level default VarEnv(None, None)).
stmtLeaf stands for any statement or expression whose check_names and
type_check do not touch the context's local_env reference (variable and
name bookkeeping mutates the referenced environment's tables and the error
counter only, which are outside this projection of the state). -/
inductive ScopeNode where
  | blockScope (local_env : Nat) (statements : ScopeNode)
  | funcDeclScope (body : ScopeNode)
  | structDeclScope
  | forScope (initE testE updateE body : ScopeNode)
  | stmtLeaf
  | consScope (head tail : ScopeNode)
  | nilScope
deriving DecidableEq, Repr

/-- The projection of the phase context relevant to scope threading: the
ctx['local_env'] reference (an environment id) and the allocator that
yields a fresh id for every VarEnv(...) construction. -/
structure ScopeCtx where
  localEnv : Nat
  nextEnv : Nat
deriving DecidableEq, Repr

/-- check_names restricted to its effect on ctx['local_env'] and on VarEnv
creation.  BlockNode: saves parent, stores a fresh VarEnv in
self.local_env, installs it, recurses into the statements, restores
parent.  FunctionDeclNode: the same around its body (parameter insertion
into self.env touches that environment's tables only).  StructDeclNode:
creates and installs a fresh environment and restores the parent without
visiting the field declarations (as in the source).  ForNode: the same
around init, test and update — the body is not visited by the source's
check_names.  All other statements recurse without touching the
reference. -/
def scope_check_names : ScopeNode → ScopeCtx → ScopeNode × ScopeCtx
  | .blockScope _ stmts, ctx =>
      let parent := ctx.localEnv
      let fresh := ctx.nextEnv
      let (stmts1, ctx1) :=
        scope_check_names stmts { localEnv := fresh, nextEnv := ctx.nextEnv + 1 }
      (.blockScope fresh stmts1, { ctx1 with localEnv := parent })
  | .funcDeclScope body, ctx =>
      let parent := ctx.localEnv
      let fresh := ctx.nextEnv
      let (body1, ctx1) :=
        scope_check_names body { localEnv := fresh, nextEnv := ctx.nextEnv + 1 }
      (.funcDeclScope body1, { ctx1 with localEnv := parent })
  | .structDeclScope, ctx =>
      let parent := ctx.localEnv
      (.structDeclScope,
        { localEnv := parent, nextEnv := ctx.nextEnv + 1 })
  | .forScope initE testE updateE body, ctx =>
      let parent := ctx.localEnv
      let fresh := ctx.nextEnv
      let (initE1, ctx1) :=
        scope_check_names initE { localEnv := fresh, nextEnv := ctx.nextEnv + 1 }
      let (testE1, ctx2) := scope_check_names testE ctx1
      let (updateE1, ctx3) := scope_check_names updateE ctx2
      (.forScope initE1 testE1 updateE1 body, { ctx3 with localEnv := parent })
  | .stmtLeaf, ctx => (.stmtLeaf, ctx)
  | .consScope h t, ctx =>
      let (h1, ctx1) := scope_check_names h ctx
      let (t1, ctx2) := scope_check_names t ctx1
      (.consScope h1 t1, ctx2)
  | .nilScope, ctx => (.nilScope, ctx)

/-- type_check restricted to its effect on ctx['local_env'].
BlockNode.type_check assigns ctx['local_env'] = self.local_env and folds
over its statements without restoring the previous reference.
FunctionDeclNode, StructDeclNode and ForNode have no type_check override,
so the generic recursion of ucbase.ASTNode.type_check visits their
children. -/
def scope_type_check : ScopeNode → ScopeCtx → ScopeCtx
  | .blockScope stored stmts, ctx =>
      scope_type_check stmts { ctx with localEnv := stored }
  | .funcDeclScope body, ctx => scope_type_check body ctx
  | .structDeclScope, ctx => ctx
  | .forScope initE testE updateE body, ctx =>
      scope_type_check body
        (scope_type_check updateE
          (scope_type_check testE (scope_type_check initE ctx)))
  | .stmtLeaf, ctx => ctx
  | .consScope h t, ctx => scope_type_check t (scope_type_check h ctx)
  | .nilScope, ctx => ctx

/-- Type.array_type viewed structurally: the property creates (and caches)
the ArrayType wrapping the receiver; since each type caches exactly one
array type, the resulting object is determined by its element type and is
modelled as Ty.arr.  UncomputedType overrides the property to return the
receiver itself. -/
def Ty.array_type : Ty → Ty
  | .uncomputed => .uncomputed
  | t => .arr t

/-- Whether a type object has an elem_type attribute: ArrayType instances
carry one, and UncomputedType exposes an elem_type property; no other type
does (hasattr in ArrayIndexNode.type_check). -/
def Ty.hasElemType : Ty → Bool
  | .arr _ => true
  | .uncomputed => true
  | _ => false

/-- The elem_type attribute where it exists: the element type of an
ArrayType, and the receiver itself for UncomputedType.  (Unreachable for
other types, guarded by hasElemType.) -/
def Ty.elemTypeAttr : Ty → Ty
  | .arr e => e
  | .uncomputed => .uncomputed
  | t => t

/-- lookup_field (uctypes.py).  Base Type.lookup_field: one error, fall
back to the global int type.  ArrayType.lookup_field: the synthetic length
field is int; any other name errors and falls back to int.
UserType.lookup_field scans decl.fielddecls, but a matching FieldDeclNode
has no get_type method (an AttributeError); no user-defined type occurs in
the programs modelled here, so the user branch is modelled as the
not-found path it takes when no field matches.  Result: field type and
number of errors reported. -/
def Ty.lookup_field (self : Ty) (fname : String)
    (genvTypes : List (String × Ty)) : Ty × Nat :=
  match self with
  | .arr _ =>
      if fname = "length" then GlobalEnv_lookup_type genvTypes "int"
      else
        let r := GlobalEnv_lookup_type genvTypes "int"
        (r.1, r.2 + 1)
  | _ =>
      let r := GlobalEnv_lookup_type genvTypes "int"
      (r.1, r.2 + 1)

/-- A ucfunctions.Function object: name, return type (None until
resolve_types fills it) and the accumulated parameter types. -/
structure FuncObj where
  fname : String
  rettype : Option Ty
  param_types : List Ty
deriving DecidableEq, Repr

/-- The AST of the analysed program fragment (ucbase.py, ucstmt.py,
ucexpr.py).  Node lists (declarations, parameters, statements) are encoded
as consN / nilN chains.  NameNode children are flattened to their raw
strings (NameNode overrides nothing, so visiting it is a no-op in every
pass).  Computed attributes: typeA models the type attribute, initialised
to the Ty.uncomputed sentinel; funcA models the func attribute of a
function declaration, none standing for the uncomputed_function sentinel
and some i for the Function object at index i of the function heap;
localEnvA models BlockNode.local_env (class default VarEnv(None, None)). -/
inductive Node where
  | programN (decls : Node)
  | funcDeclN (rettype : Node) (fname : String) (parameters : Node)
      (body : Node) (funcA : Option Nat)
  | typeNameN (tname : String) (typeA : Ty)
  | arrayTypeNameN (elemNode : Node) (typeA : Ty)
  | paramN (vartype : Node) (pname : String)
  | blockN (statements : Node) (localEnvA : VarEnvM)
  | exprStmtN (expr : Node)
  | nameExprN (ename : String) (typeA : Ty)
  | notNodeN (expr : Node) (typeA : Ty)
  | intLitN (text : String) (typeA : Ty)
  | assignN (lhs rhs : Node) (typeA : Ty)
  | arrayIndexN (receiver index : Node) (typeA : Ty)
  | fieldAccessN (receiver : Node) (fieldName : String) (typeA : Ty)
  | consN (head tail : Node)
  | nilN
deriving DecidableEq, Repr

/-- Build a consN / nilN chain from a list. -/
def nlist : List Node → Node
  | [] => .nilN
  | h :: t => .consN h (nlist t)

/-- The type attribute of a node that carries one (attribute access;
called only on type-name and expression nodes). -/
def getTypeAttr : Node → Ty
  | .typeNameN _ t => t
  | .arrayTypeNameN _ t => t
  | .nameExprN _ t => t
  | .notNodeN _ t => t
  | .intLitN _ t => t
  | .assignN _ _ t => t
  | .arrayIndexN _ _ t => t
  | .fieldAccessN _ _ t => t
  | _ => .uncomputed

/-- ExpressionNode.is_literal returns False; LiteralNode overrides it to
True (IntegerNode is the only literal kind occurring here). -/
def is_literal : Node → Bool
  | .intLitN _ _ => true
  | _ => false

/-- ExpressionNode.is_lvalue returns False; FieldAccessNode is the only
node class that overrides it to True (ucexpr.py). -/
def is_lvalue : Node → Bool
  | .fieldAccessN _ _ _ => true
  | _ => false

/-- The phase context and global state threaded through the passes: the
global environment's type and function tables, the heap of Function
objects (giving them identity), ctx['local_env'], and the ucerror error
counter. -/
structure PCtx where
  genvTypes : List (String × Ty)
  genvFuncs : List (String × Nat)
  funcHeap : List FuncObj
  localEnv : Option VarEnvM
  errors : Nat
deriving Repr

/-- VarEnv(parent_env, global_env) construction from ctx['local_env']. -/
def mkVarEnv : Option VarEnvM → VarEnvM
  | none => .top []
  | some p => .nest [] p

/-- GlobalEnv.__types after add_builtin_types. -/
def builtinTypes : List (String × Ty) :=
  [("int", .prim "int"), ("long", .prim "long"), ("double", .prim "double"),
   ("boolean", .prim "boolean"), ("string", .prim "string"),
   ("void", .prim "void"), ("null", .prim "null")]

/-- add_conversions (ucfunctions.py): for type1 and type2 ranging over
int, long, double, string with type1 ≠ type2, the function named
type2_to_type1 takes type2 and returns type1. -/
def conversionFuncs : List FuncObj :=
  (["int", "long", "double", "string"].flatMap (fun type1 =>
    ["int", "long", "double", "string"].filterMap (fun type2 =>
      if type1 = type2 then none
      else some ⟨type2 ++ "_to_" ++ type1, some (.prim type1), [.prim type2]⟩)))
  ++ [⟨"string_to_boolean", some (.prim "boolean"), [.prim "string"]⟩,
      ⟨"boolean_to_string", some (.prim "string"), [.prim "boolean"]⟩]

/-- add_builtin_functions (ucfunctions.py): the conversions plus the
string, math, print, input and exit builtins, in insertion order. -/
def builtinFuncObjs : List FuncObj :=
  conversionFuncs ++
  [⟨"length", some (.prim "int"), [.prim "string"]⟩,
   ⟨"substr", some (.prim "string"), [.prim "string", .prim "int", .prim "int"]⟩,
   ⟨"ordinal", some (.prim "int"), [.prim "string"]⟩,
   ⟨"character", some (.prim "string"), [.prim "int"]⟩,
   ⟨"pow", some (.prim "double"), [.prim "double", .prim "double"]⟩,
   ⟨"sqrt", some (.prim "double"), [.prim "double"]⟩,
   ⟨"ceil", some (.prim "double"), [.prim "double"]⟩,
   ⟨"floor", some (.prim "double"), [.prim "double"]⟩,
   ⟨"print", some (.prim "void"), [.prim "string"]⟩,
   ⟨"println", some (.prim "void"), [.prim "string"]⟩,
   ⟨"peekchar", some (.prim "string"), []⟩,
   ⟨"readchar", some (.prim "string"), []⟩,
   ⟨"readline", some (.prim "string"), []⟩,
   ⟨"exit", some (.prim "void"), [.prim "int"]⟩]

/-- The initial context: GlobalEnv.__init__ seeds the builtin types and
functions; the error counter starts at zero and no local environment is
installed. -/
def initCtx : PCtx :=
  { genvTypes := builtinTypes,
    genvFuncs := (builtinFuncObjs.map FuncObj.fname).enum.map
      (fun p => (p.2, p.1)),
    funcHeap := builtinFuncObjs,
    localEnv := none,
    errors := 0 }

/-- GlobalEnv.add_function inside the pass pipeline: a fresh UserFunction
(rettype None, empty parameter list) is created and placed on the heap; if
the name is already bound, one redefinition error is reported and the
table entry is kept; otherwise the name is bound to the fresh object.  The
index of the fresh object is returned either way. -/
def add_function_p (ctx : PCtx) (fname : String) : PCtx × Nat :=
  let func : FuncObj := ⟨fname, none, []⟩
  let fid := ctx.funcHeap.length
  let ctx1 := { ctx with funcHeap := ctx.funcHeap ++ [func] }
  match lookupA ctx1.genvFuncs fname with
  | some _ => ({ ctx1 with errors := ctx1.errors + 1 }, fid)
  | none => ({ ctx1 with genvFuncs := ctx1.genvFuncs ++ [(fname, fid)] }, fid)

/-- Pass 1, find_decls (ucbase.py): FunctionDeclNode registers itself via
add_function and stores the returned Function object in its func attribute
without visiting its children; every other node uses the generic child
recursion. -/
def find_decls : Node → PCtx → Node × PCtx
  | .programN ds, ctx =>
      let (ds1, c1) := find_decls ds ctx
      (.programN ds1, c1)
  | .funcDeclN rt fn ps body _, ctx =>
      let (c1, fid) := add_function_p ctx fn
      (.funcDeclN rt fn ps body (some fid), c1)
  | .typeNameN n t, ctx => (.typeNameN n t, ctx)
  | .arrayTypeNameN e t, ctx =>
      let (e1, c1) := find_decls e ctx
      (.arrayTypeNameN e1 t, c1)
  | .paramN vt n, ctx =>
      let (vt1, c1) := find_decls vt ctx
      (.paramN vt1 n, c1)
  | .blockN ss env, ctx =>
      let (ss1, c1) := find_decls ss ctx
      (.blockN ss1 env, c1)
  | .exprStmtN e, ctx =>
      let (e1, c1) := find_decls e ctx
      (.exprStmtN e1, c1)
  | .nameExprN n t, ctx => (.nameExprN n t, ctx)
  | .notNodeN e t, ctx =>
      let (e1, c1) := find_decls e ctx
      (.notNodeN e1 t, c1)
  | .intLitN s t, ctx => (.intLitN s t, ctx)
  | .assignN l r t, ctx =>
      let (l1, c1) := find_decls l ctx
      let (r1, c2) := find_decls r c1
      (.assignN l1 r1 t, c2)
  | .arrayIndexN r i t, ctx =>
      let (r1, c1) := find_decls r ctx
      let (i1, c2) := find_decls i c1
      (.arrayIndexN r1 i1 t, c2)
  | .fieldAccessN r f t, ctx =>
      let (r1, c1) := find_decls r ctx
      (.fieldAccessN r1 f t, c1)
  | .consN h t, ctx =>
      let (h1, c1) := find_decls h ctx
      let (t1, c2) := find_decls t c1
      (.consN h1 t1, c2)
  | .nilN, ctx => (.nilN, ctx)

/-- Replace the rettype of the Function object named by the func attribute
(self.func.rettype = self.rettype.type in FunctionDeclNode.resolve_types).
With the uncomputed_function sentinel in the attribute nothing observable
changes (the pipeline always runs find_decls first). -/
def setFuncRettype (ctx : PCtx) (funcA : Option Nat) (retty : Ty) : PCtx :=
  match funcA with
  | some fid =>
      match ctx.funcHeap[fid]? with
      | some f =>
          let f1 := { f with rettype := some retty }
          { ctx with funcHeap := ctx.funcHeap.set fid f1 }
      | none => ctx
  | none => ctx

/-- Append the resolved parameter types to the Function object's
param_types (the append in the loop of FunctionDeclNode.resolve_types). -/
def appendParamTypes (ctx : PCtx) (funcA : Option Nat) (tys : List Ty) :
    PCtx :=
  match funcA with
  | some fid =>
      match ctx.funcHeap[fid]? with
      | some f =>
          let f1 := { f with param_types := f.param_types ++ tys }
          { ctx with funcHeap := ctx.funcHeap.set fid f1 }
      | none => ctx
  | none => ctx

/-- The resolved types of a parameter chain, in order (read off after the
parameters' type names are resolved; the source appends each
param.vartype.type right after resolving it, and the appends report no
errors, so batching them is observationally identical). -/
def collectParamTypes : Node → List Ty
  | .consN (.paramN vt _) t => getTypeAttr vt :: collectParamTypes t
  | .consN _ t => collectParamTypes t
  | _ => []

/-- Pass 2, resolve_types.  TypeNameNode stamps its type from the global
table; ArrayTypeNameNode resolves its element first (if still uncomputed)
and derives the array type; ParameterNode resolves its vartype;
FunctionDeclNode resolves its return type, stamps the Function object,
resolves the parameters, accumulates their types, then recurses into the
body; IntegerNode picks long / double / int from its literal text;
UnaryPrefixNode resolves its operand without stamping its own type;
BinaryOpNode (AssignNode) stamps boolean and resolves both operands;
ExpressionStatementNode, BlockNode, ArrayIndexNode and FieldAccessNode
recurse as in the source; the rest is the generic child recursion. -/
def resolve_types : Node → PCtx → Node × PCtx
  | .programN ds, ctx =>
      let (ds1, c1) := resolve_types ds ctx
      (.programN ds1, c1)
  | .funcDeclN rt fn ps body funcA, ctx =>
      let (rt1, c1) := resolve_types rt ctx
      let c2 := setFuncRettype c1 funcA (getTypeAttr rt1)
      let (ps1, c3) := resolve_types ps c2
      let c4 := appendParamTypes c3 funcA (collectParamTypes ps1)
      let (body1, c5) := resolve_types body c4
      (.funcDeclN rt1 fn ps1 body1 funcA, c5)
  | .typeNameN n _, ctx =>
      let r := GlobalEnv_lookup_type ctx.genvTypes n
      (.typeNameN n r.1, { ctx with errors := ctx.errors + r.2 })
  | .arrayTypeNameN e _, ctx =>
      let (e1, c1) :=
        if getTypeAttr e = Ty.uncomputed then resolve_types e ctx
        else (e, ctx)
      (.arrayTypeNameN e1 ((getTypeAttr e1).array_type), c1)
  | .paramN vt n, ctx =>
      let (vt1, c1) := resolve_types vt ctx
      (.paramN vt1 n, c1)
  | .blockN ss env, ctx =>
      let (ss1, c1) := resolve_types ss ctx
      (.blockN ss1 env, c1)
  | .exprStmtN e, ctx =>
      let (e1, c1) := resolve_types e ctx
      (.exprStmtN e1, c1)
  | .nameExprN n t, ctx => (.nameExprN n t, ctx)
  | .notNodeN e t, ctx =>
      let (e1, c1) := resolve_types e ctx
      (.notNodeN e1 t, c1)
  | .intLitN s _, ctx =>
      if s.data.getLast? = some 'L' then
        let r := GlobalEnv_lookup_type ctx.genvTypes "long"
        (.intLitN s r.1, { ctx with errors := ctx.errors + r.2 })
      else if s.data.contains '.' then
        let r := GlobalEnv_lookup_type ctx.genvTypes "double"
        (.intLitN s r.1, { ctx with errors := ctx.errors + r.2 })
      else
        let r := GlobalEnv_lookup_type ctx.genvTypes "int"
        (.intLitN s r.1, { ctx with errors := ctx.errors + r.2 })
  | .assignN l r _, ctx =>
      let rb := GlobalEnv_lookup_type ctx.genvTypes "boolean"
      let c0 := { ctx with errors := ctx.errors + rb.2 }
      let (l1, c1) := resolve_types l c0
      let (r1, c2) := resolve_types r c1
      (.assignN l1 r1 rb.1, c2)
  | .arrayIndexN r i t, ctx =>
      let (r1, c1) := resolve_types r ctx
      let (i1, c2) := resolve_types i c1
      (.arrayIndexN r1 i1 t, c2)
  | .fieldAccessN r f t, ctx =>
      let (r1, c1) := resolve_types r ctx
      (.fieldAccessN r1 f t, c1)
  | .consN h t, ctx =>
      let (h1, c1) := resolve_types h ctx
      let (t1, c2) := resolve_types t c1
      (.consN h1 t1, c2)
  | .nilN, ctx => (.nilN, ctx)

/-- Pass 3, resolve_calls: only CallNode overrides it, and no call
expression occurs in this fragment, so every node uses the generic child
recursion, which changes nothing and reports nothing. -/
def resolve_calls : Node → PCtx → Node × PCtx
  | .programN ds, ctx =>
      let (ds1, c1) := resolve_calls ds ctx
      (.programN ds1, c1)
  | .funcDeclN rt fn ps body funcA, ctx =>
      let (rt1, c1) := resolve_calls rt ctx
      let (ps1, c2) := resolve_calls ps c1
      let (body1, c3) := resolve_calls body c2
      (.funcDeclN rt1 fn ps1 body1 funcA, c3)
  | .typeNameN n t, ctx => (.typeNameN n t, ctx)
  | .arrayTypeNameN e t, ctx =>
      let (e1, c1) := resolve_calls e ctx
      (.arrayTypeNameN e1 t, c1)
  | .paramN vt n, ctx =>
      let (vt1, c1) := resolve_calls vt ctx
      (.paramN vt1 n, c1)
  | .blockN ss env, ctx =>
      let (ss1, c1) := resolve_calls ss ctx
      (.blockN ss1 env, c1)
  | .exprStmtN e, ctx =>
      let (e1, c1) := resolve_calls e ctx
      (.exprStmtN e1, c1)
  | .nameExprN n t, ctx => (.nameExprN n t, ctx)
  | .notNodeN e t, ctx =>
      let (e1, c1) := resolve_calls e ctx
      (.notNodeN e1 t, c1)
  | .intLitN s t, ctx => (.intLitN s t, ctx)
  | .assignN l r t, ctx =>
      let (l1, c1) := resolve_calls l ctx
      let (r1, c2) := resolve_calls r c1
      (.assignN l1 r1 t, c2)
  | .arrayIndexN r i t, ctx =>
      let (r1, c1) := resolve_calls r ctx
      let (i1, c2) := resolve_calls i c1
      (.arrayIndexN r1 i1 t, c2)
  | .fieldAccessN r f t, ctx =>
      let (r1, c1) := resolve_calls r ctx
      (.fieldAccessN r1 f t, c1)
  | .consN h t, ctx =>
      let (h1, c1) := resolve_calls h ctx
      let (t1, c2) := resolve_calls t c1
      (.consN h1 t1, c2)
  | .nilN, ctx => (.nilN, ctx)

/-- Add the parameters of a parameter chain to the function's environment
(the loop in FunctionDeclNode.check_names; source positions are not
modelled, errors are counted). -/
def addParams : VarEnvM → Node → VarEnvM × Nat
  | env, .consN (.paramN vt pn) t =>
      let (env1, errs) := env.add_variable 0 pn (getTypeAttr vt)
      let (env2, n) := addParams env1 t
      (env2, errs.length + n)
  | env, .consN _ t => addParams env t
  | env, _ => (env, 0)

/-- Name lookup through ctx['local_env'] (NameExpressionNode.check_names).
A name expression is only reached inside a function body, where
check_names has installed an environment; the none branch is
unreachable from the driver and returns the sentinel. -/
def localGetType (genvTypes : List (String × Ty)) (o : Option VarEnvM)
    (name : String) : Ty × Nat :=
  match o with
  | some env => VarEnvM.get_type genvTypes env name
  | none => (Ty.uncomputed, 0)

/-- Pass 4, check_names.  FunctionDeclNode creates a VarEnv chained to the
enclosing scope, installs it, inserts its parameters, checks the body and
restores the parent reference.  BlockNode does the same around its
statements and stores the environment in its local_env attribute.
NameExpressionNode stamps its type by scope lookup.  BinaryOpNode
(AssignNode) skips literal operands; ArrayIndexNode and FieldAccessNode
recurse unconditionally; the rest is the generic child recursion. -/
def check_names : Node → PCtx → Node × PCtx
  | .programN ds, ctx =>
      let (ds1, c1) := check_names ds ctx
      (.programN ds1, c1)
  | .funcDeclN rt fn ps body funcA, ctx =>
      let parent := ctx.localEnv
      let env := mkVarEnv parent
      let (env1, perrs) := addParams env ps
      let c1 := { ctx with localEnv := some env1,
                           errors := ctx.errors + perrs }
      let (body1, c2) := check_names body c1
      (.funcDeclN rt fn ps body1 funcA, { c2 with localEnv := parent })
  | .typeNameN n t, ctx => (.typeNameN n t, ctx)
  | .arrayTypeNameN e t, ctx =>
      let (e1, c1) := check_names e ctx
      (.arrayTypeNameN e1 t, c1)
  | .paramN vt n, ctx =>
      let (vt1, c1) := check_names vt ctx
      (.paramN vt1 n, c1)
  | .blockN ss _, ctx =>
      let parent := ctx.localEnv
      let env := mkVarEnv parent
      let c1 := { ctx with localEnv := some env }
      let (ss1, c2) := check_names ss c1
      let stored := c2.localEnv.getD env
      (.blockN ss1 stored, { c2 with localEnv := parent })
  | .exprStmtN e, ctx =>
      let (e1, c1) := check_names e ctx
      (.exprStmtN e1, c1)
  | .nameExprN n _, ctx =>
      let r := localGetType ctx.genvTypes ctx.localEnv n
      (.nameExprN n r.1, { ctx with errors := ctx.errors + r.2 })
  | .notNodeN e t, ctx =>
      let (e1, c1) := check_names e ctx
      (.notNodeN e1 t, c1)
  | .intLitN s t, ctx => (.intLitN s t, ctx)
  | .assignN l r t, ctx =>
      let (l1, c1) := if is_literal l then (l, ctx) else check_names l ctx
      let (r1, c2) := if is_literal r then (r, c1) else check_names r c1
      (.assignN l1 r1 t, c2)
  | .arrayIndexN r i t, ctx =>
      let (r1, c1) := check_names r ctx
      let (i1, c2) := check_names i c1
      (.arrayIndexN r1 i1 t, c2)
  | .fieldAccessN r f t, ctx =>
      let (r1, c1) := check_names r ctx
      (.fieldAccessN r1 f t, c1)
  | .consN h t, ctx =>
      let (h1, c1) := check_names h ctx
      let (t1, c2) := check_names t c1
      (.consN h1 t1, c2)
  | .nilN, ctx => (.nilN, ctx)

/-- Pass 5, basic_control over this fragment: none of these node kinds
overrides it (there is no loop, break or continue in the modelled
programs), so every node uses the generic child recursion, which changes
nothing and reports nothing. -/
def basic_control_p : Node → PCtx → Node × PCtx
  | .programN ds, ctx =>
      let (ds1, c1) := basic_control_p ds ctx
      (.programN ds1, c1)
  | .funcDeclN rt fn ps body funcA, ctx =>
      let (rt1, c1) := basic_control_p rt ctx
      let (ps1, c2) := basic_control_p ps c1
      let (body1, c3) := basic_control_p body c2
      (.funcDeclN rt1 fn ps1 body1 funcA, c3)
  | .typeNameN n t, ctx => (.typeNameN n t, ctx)
  | .arrayTypeNameN e t, ctx =>
      let (e1, c1) := basic_control_p e ctx
      (.arrayTypeNameN e1 t, c1)
  | .paramN vt n, ctx =>
      let (vt1, c1) := basic_control_p vt ctx
      (.paramN vt1 n, c1)
  | .blockN ss env, ctx =>
      let (ss1, c1) := basic_control_p ss ctx
      (.blockN ss1 env, c1)
  | .exprStmtN e, ctx =>
      let (e1, c1) := basic_control_p e ctx
      (.exprStmtN e1, c1)
  | .nameExprN n t, ctx => (.nameExprN n t, ctx)
  | .notNodeN e t, ctx =>
      let (e1, c1) := basic_control_p e ctx
      (.notNodeN e1 t, c1)
  | .intLitN s t, ctx => (.intLitN s t, ctx)
  | .assignN l r t, ctx =>
      let (l1, c1) := basic_control_p l ctx
      let (r1, c2) := basic_control_p r c1
      (.assignN l1 r1 t, c2)
  | .arrayIndexN r i t, ctx =>
      let (r1, c1) := basic_control_p r ctx
      let (i1, c2) := basic_control_p i c1
      (.arrayIndexN r1 i1 t, c2)
  | .fieldAccessN r f t, ctx =>
      let (r1, c1) := basic_control_p r ctx
      (.fieldAccessN r1 f t, c1)
  | .consN h t, ctx =>
      let (h1, c1) := basic_control_p h ctx
      let (t1, c2) := basic_control_p t c1
      (.consN h1 t1, c2)
  | .nilN, ctx => (.nilN, ctx)

/-- Pass 6, type_check.  BlockNode installs its stored local_env and folds
over its statements (without restoring the previous reference).
AssignNode first runs the shared BinaryOpNode.type_check (rhs then lhs),
then reports an l-value error and returns early if the left operand is not
an l-value, otherwise stamps its own type with the left operand's.
ArrayIndexNode re-runs its resolve_types and check_names, stamps the
receiver type, then requires an elem_type attribute on the receiver's type
and an integral index type, reporting one error and returning early per
failed requirement.  FieldAccessNode re-runs its resolve_types and
check_names and stamps the receiver's field type via lookup_field.
UnaryPrefixNode has no type_check override, so the generic recursion
visits its operand without stamping the node's own type.  The rest is the
generic child recursion. -/
def type_check : Node → PCtx → Node × PCtx
  | .programN ds, ctx =>
      let (ds1, c1) := type_check ds ctx
      (.programN ds1, c1)
  | .funcDeclN rt fn ps body funcA, ctx =>
      let (rt1, c1) := type_check rt ctx
      let (ps1, c2) := type_check ps c1
      let (body1, c3) := type_check body c2
      (.funcDeclN rt1 fn ps1 body1 funcA, c3)
  | .typeNameN n t, ctx => (.typeNameN n t, ctx)
  | .arrayTypeNameN e t, ctx =>
      let (e1, c1) := type_check e ctx
      (.arrayTypeNameN e1 t, c1)
  | .paramN vt n, ctx =>
      let (vt1, c1) := type_check vt ctx
      (.paramN vt1 n, c1)
  | .blockN ss stored, ctx =>
      let c1 := { ctx with localEnv := some stored }
      let (ss1, c2) := type_check ss c1
      (.blockN ss1 stored, c2)
  | .exprStmtN e, ctx =>
      let (e1, c1) := type_check e ctx
      (.exprStmtN e1, c1)
  | .nameExprN n t, ctx => (.nameExprN n t, ctx)
  | .notNodeN e t, ctx =>
      let (e1, c1) := type_check e ctx
      (.notNodeN e1 t, c1)
  | .intLitN s t, ctx => (.intLitN s t, ctx)
  | .assignN l r t, ctx =>
      let (r1, c1) := type_check r ctx
      let (l1, c2) := type_check l c1
      if is_lvalue l1 then (.assignN l1 r1 (getTypeAttr l1), c2)
      else (.assignN l1 r1 t, { c2 with errors := c2.errors + 1 })
  | .arrayIndexN r i t, ctx =>
      let (n1, c1) := resolve_types (.arrayIndexN r i t) ctx
      let (n2, c2) := check_names n1 c1
      match n2 with
      | .arrayIndexN r2 i2 _ =>
          let rty := getTypeAttr r2
          if rty.hasElemType then
            let sty := rty.elemTypeAttr
            if (getTypeAttr i2).is_integral then
              (.arrayIndexN r2 i2 sty, c2)
            else
              (.arrayIndexN r2 i2 sty, { c2 with errors := c2.errors + 1 })
          else
            (.arrayIndexN r2 i2 rty, { c2 with errors := c2.errors + 1 })
      | other => (other, c2)
  | .fieldAccessN r f t, ctx =>
      let (n1, c1) := resolve_types (.fieldAccessN r f t) ctx
      let (n2, c2) := check_names n1 c1
      match n2 with
      | .fieldAccessN r2 f2 _ =>
          let lf := (getTypeAttr r2).lookup_field f2 c2.genvTypes
          (.fieldAccessN r2 f2 lf.1, { c2 with errors := c2.errors + lf.2 })
      | other => (other, c2)
  | .consN h t, ctx =>
      let (h1, c1) := type_check h ctx
      let (t1, c2) := type_check t c1
      (.consN h1 t1, c2)
  | .nilN, ctx => (.nilN, ctx)

/-- The first five passes, run in order from the initial context. -/
def run_front (p : Node) : Node × PCtx :=
  let (p1, c1) := find_decls p initCtx
  let (p2, c2) := resolve_types p1 c1
  let (p3, c3) := resolve_calls p2 c2
  let (p4, c4) := check_names p3 c3
  basic_control_p p4 c4

/-- All six analysis passes, run in order from the initial context. -/
def run_passes (p : Node) : Node × PCtx :=
  let (p5, c5) := run_front p
  type_check p5 c5

/-- One validator error if the given type attribute still holds the
uncomputed sentinel. -/
def sentinelCount (t : Ty) : Nat :=
  if t = Ty.uncomputed then 1 else 0

/-- ASTNode.validate: the number of errors the post-pass validator
reports, counting every node whose type attribute is still the
uncomputed_type sentinel or whose func attribute is still the
uncomputed_function sentinel, over the whole tree. -/
def validateCount : Node → Nat
  | .programN ds => validateCount ds
  | .funcDeclN rt _ ps body funcA =>
      (if funcA = none then 1 else 0) + validateCount rt
        + validateCount ps + validateCount body
  | .typeNameN _ t => sentinelCount t
  | .arrayTypeNameN e t => sentinelCount t + validateCount e
  | .paramN vt _ => validateCount vt
  | .blockN ss _ => validateCount ss
  | .exprStmtN e => validateCount e
  | .nameExprN _ t => sentinelCount t
  | .notNodeN e t => sentinelCount t + validateCount e
  | .intLitN _ t => sentinelCount t
  | .assignN l r t => sentinelCount t + validateCount l + validateCount r
  | .arrayIndexN r i t => sentinelCount t + validateCount r + validateCount i
  | .fieldAccessN r _ t => sentinelCount t + validateCount r
  | .consN h t => validateCount h + validateCount t
  | .nilN => 0

/-- The type attribute of the first assignment node found in the tree (in
the traversal order of the children), used to observe the computed type of
a program's assignment expression. -/
def firstAssignTy : Node → Option Ty
  | .programN ds => firstAssignTy ds
  | .funcDeclN rt _ ps body _ =>
      (firstAssignTy rt).orElse (fun _ =>
        (firstAssignTy ps).orElse (fun _ => firstAssignTy body))
  | .typeNameN _ _ => none
  | .arrayTypeNameN e _ => firstAssignTy e
  | .paramN vt _ => firstAssignTy vt
  | .blockN ss _ => firstAssignTy ss
  | .exprStmtN e => firstAssignTy e
  | .nameExprN _ _ => none
  | .notNodeN e _ => firstAssignTy e
  | .intLitN _ _ => none
  | .assignN _ _ t => some t
  | .arrayIndexN r i _ =>
      (firstAssignTy r).orElse (fun _ => firstAssignTy i)
  | .fieldAccessN r _ _ => firstAssignTy r
  | .consN h t => (firstAssignTy h).orElse (fun _ => firstAssignTy t)
  | .nilN => none

/-- The program void f(boolean b) \x7b !b; \x7d: a function whose body is a
single expression statement applying the unary ! operator to a parameter. -/
def progC1 : Node :=
  .programN (nlist [
    .funcDeclN (.typeNameN "void" .uncomputed) "f"
      (nlist [.paramN (.typeNameN "boolean" .uncomputed) "b"])
      (.blockN
        (nlist [.exprStmtN (.notNodeN (.nameExprN "b" .uncomputed)
          .uncomputed)])
        (.top []))
      none])

/-- The program void f(int[] a) \x7b a[0] = 3; \x7d: an assignment whose
left-hand side is an array-index expression. -/
def progArrayIndexAssign : Node :=
  .programN (nlist [
    .funcDeclN (.typeNameN "void" .uncomputed) "f"
      (nlist [.paramN
        (.arrayTypeNameN (.typeNameN "int" .uncomputed) .uncomputed) "a"])
      (.blockN
        (nlist [.exprStmtN (.assignN
          (.arrayIndexN (.nameExprN "a" .uncomputed)
            (.intLitN "0" .uncomputed) .uncomputed)
          (.intLitN "3" .uncomputed) .uncomputed)])
        (.top []))
      none])

/-- The program void g(int[] a) \x7b a.length = 3; \x7d: an assignment whose
left-hand side is a field-access expression. -/
def progFieldAccessAssign : Node :=
  .programN (nlist [
    .funcDeclN (.typeNameN "void" .uncomputed) "g"
      (nlist [.paramN
        (.arrayTypeNameN (.typeNameN "int" .uncomputed) .uncomputed) "a"])
      (.blockN
        (nlist [.exprStmtN (.assignN
          (.fieldAccessN (.nameExprN "a" .uncomputed) "length" .uncomputed)
          (.intLitN "3" .uncomputed) .uncomputed)])
        (.top []))
      none])

/-!
Theorems.  Helper lemmas first, then one theorem per claim (with its
counterexample or witness where required).
-/

theorem lookupA_mem {α : Type} {l : List (String × α)} {name : String}
    {v : α} (h : lookupA l name = some v) : (name, v) ∈ l := by
  induction l with
  | nil => simp [lookupA] at h
  | cons kv rest ih =>
      obtain ⟨k, w⟩ := kv
      by_cases hk : k = name
      · subst hk
        simp [lookupA] at h
        subst h
        exact List.mem_cons_self _ _
      · simp [lookupA, hk] at h
        exact List.mem_cons_of_mem _ (ih h)

theorem varenv_gln_of_own {outer : VarEnvM} {name : String} {p : Nat}
    {ty : Ty} (h : lookupA outer.ownVars name = some (p, ty)) :
    outer.get_line_number name = some p := by
  cases outer with
  | top vs =>
      simp only [VarEnvM.ownVars] at h
      simp [VarEnvM.get_line_number, h]
  | nest vs parent =>
      simp only [VarEnvM.ownVars] at h
      simp [VarEnvM.get_line_number, h]

/-- C1: on the program void f(boolean b) \x7b !b; \x7d the six analysis passes
report zero semantic errors, yet the post-pass validator finds exactly one
node whose type attribute still holds the uncomputed sentinel — the unary
prefix ! node, whose type is never overwritten by any pass.  This refutes
the claim that a zero-error run leaves no sentinel in the tree. -/
theorem c1_clean_run_leaves_sentinel_on_unary_node :
    (run_passes progC1).2.errors = 0
      ∧ validateCount (run_passes progC1).1 = 1 := by
  constructor
  · rfl
  · rfl

/-- C2: basic_control reports one control-flow error for a break (and for
a continue) placed directly inside a while (respectively for) body, where
the claim requires zero; a break outside any loop gets exactly one error
as claimed; and a break after a completed while loop (in_loop reset to
False) gets two errors, where the claim requires exactly one. -/
theorem c2_break_reported_even_inside_loop :
    (basic_control_b (.whileB (.blockB (.consB .breakB .nilB)))
        ⟨none, 0⟩).errors = 1
      ∧ (basic_control_b (.forB (.blockB (.consB .continueB .nilB)))
        ⟨none, 0⟩).errors = 1
      ∧ (basic_control_b .breakB ⟨none, 0⟩).errors = 1
      ∧ (basic_control_b .continueB ⟨none, 0⟩).errors = 1
      ∧ (basic_control_b
          (.blockB (.consB (.whileB (.blockB .nilB))
            (.consB .breakB .nilB))) ⟨none, 0⟩).errors = 2 := by
  refine ⟨rfl, rfl, rfl, rfl, rfl⟩

/-- C4: the only node class overriding is_lvalue to True is
FieldAccessNode, so an array-index left-hand side is rejected: on
void f(int[] a) \x7b a[0] = 3; \x7d the first five passes report zero errors,
the type-check pass reports one (the l-value error), and the assignment
keeps the boolean type stamped by BinaryOpNode.resolve_types rather than
the left operand's int; on void g(int[] a) \x7b a.length = 3; \x7d all six
passes report zero errors and the assignment is typed int. -/
theorem c4_array_index_assignment_rejected :
    (∀ r i t, is_lvalue (Node.arrayIndexN r i t) = false)
      ∧ (∀ r f t, is_lvalue (Node.fieldAccessN r f t) = true)
      ∧ (run_front progArrayIndexAssign).2.errors = 0
      ∧ (run_passes progArrayIndexAssign).2.errors = 1
      ∧ firstAssignTy (run_passes progArrayIndexAssign).1
          = some (Ty.prim "boolean")
      ∧ (run_passes progFieldAccessAssign).2.errors = 0
      ∧ firstAssignTy (run_passes progFieldAccessAssign).1
          = some (Ty.prim "int") := by
  refine ⟨fun _ _ _ => rfl, fun _ _ _ => rfl, ?_, ?_, ?_, ?_, ?_⟩ <;> rfl

/-- C6: is_convertible_to is reflexive for every type, holds along the
widening chain int → long, int → double, long → double, and fails in the
three reverse directions. -/
theorem c6_convertibility_chain (t : Ty) :
    t.is_convertible_to t = true
      ∧ (Ty.prim "int").is_convertible_to (Ty.prim "long") = true
      ∧ (Ty.prim "long").is_convertible_to (Ty.prim "double") = true
      ∧ (Ty.prim "int").is_convertible_to (Ty.prim "double") = true
      ∧ (Ty.prim "long").is_convertible_to (Ty.prim "int") = false
      ∧ (Ty.prim "double").is_convertible_to (Ty.prim "int") = false
      ∧ (Ty.prim "double").is_convertible_to (Ty.prim "long") = false := by
  refine ⟨?_, by decide, by decide, by decide, by decide, by decide,
    by decide⟩
  cases t <;> simp [Ty.is_convertible_to]

/-- C9: reading the array_type property twice yields the identical
array-type object: the second read returns the id cached by the first and
changes neither the receiver nor the allocator, so the array type is
created at most once. -/
theorem c9_array_type_interned (self : TyObj) (alloc : TyAlloc) :
    (Type_array_type (Type_array_type self alloc).1
        (Type_array_type self alloc).2.1).2.2
      = (Type_array_type self alloc).2.2
      ∧ (Type_array_type (Type_array_type self alloc).1
          (Type_array_type self alloc).2.1).1
        = (Type_array_type self alloc).1
      ∧ (Type_array_type (Type_array_type self alloc).1
          (Type_array_type self alloc).2.1).2.1
        = (Type_array_type self alloc).2.1
      ∧ (Type_array_type self alloc).1.arrayCache
        = some (Type_array_type self alloc).2.2 := by
  obtain ⟨cache⟩ := self
  cases cache <;> simp [Type_array_type]

/-- C10: UserType.check_args with a nonempty argument list mutates the
receiver, setting its type attribute to the declaration node's type before
any check is performed (the mutation is present in every outcome), while a
zero-argument call returns True and leaves the receiver unchanged. -/
theorem c10_user_check_args_sets_type_attr (self : UserTypeM)
    (args : List Ty) (h : args ≠ []) :
    UserType_check_args self [] = (self, .ok true, 0)
      ∧ (UserType_check_args self args).1
        = { self with typeAttr := some self.decl.declType } := by
  constructor
  · simp [UserType_check_args]
  · have hlen : ¬ args.length = 0 := by
      simpa using h
    simp only [UserType_check_args, if_neg hlen]
    split <;> rfl

/-- C10 witness: the theorem applied to a concrete user type and the
one-element argument list [int]. -/
theorem c10_user_check_args_sets_type_attr_witness :
    UserType_check_args ⟨⟨Ty.user "S"⟩, [], none⟩ [] =
        (⟨⟨Ty.user "S"⟩, [], none⟩, .ok true, 0)
      ∧ (UserType_check_args ⟨⟨Ty.user "S"⟩, [], none⟩ [Ty.prim "int"]).1
        = { (⟨⟨Ty.user "S"⟩, [], none⟩ : UserTypeM) with
              typeAttr := some (Ty.user "S") } :=
  c10_user_check_args_sets_type_attr ⟨⟨Ty.user "S"⟩, [], none⟩
    [Ty.prim "int"] (by decide)

/-- C3 counterexample: with x bound at line 3 in the outer scope,
declaring x in an inner block reports one redeclaration error (citing
line 3) instead of succeeding silently, leaves the inner environment
without a binding for x, and a lookup from the inner scope still resolves
to the outer binding (int), not to the attempted inner one (boolean). -/
theorem c3_shadowing_errors_counterexample :
    (VarEnvM.nest [] (VarEnvM.top [("x", 3, Ty.prim "int")])).add_variable
        7 "x" (Ty.prim "boolean")
      = (VarEnvM.nest [] (VarEnvM.top [("x", 3, Ty.prim "int")]), [3])
      ∧ VarEnvM.get_type builtinTypes
          (VarEnvM.nest [] (VarEnvM.top [("x", 3, Ty.prim "int")])) "x"
        = (Ty.prim "int", 0) := by
  constructor
  · rfl
  · rfl

/-- C3 (amended): add_variable checks the whole active chain, so declaring
in an inner block a name already bound in an enclosing scope reports one
redeclaration error citing the outer declaration's line and binds nothing
(inner lookups keep resolving to the outer binding); declaring the same
name twice in the same block likewise reports a redeclaration error citing
the first declaration's line. -/
theorem c3_redeclaration_checked_across_chain (outer : VarEnvM)
    (genv : List (String × Ty)) (name : String) (p : Nat)
    (ty ty1 ty2 : Ty) (pos1 pos2 : Nat)
    (h : lookupA outer.ownVars name = some (p, ty)) :
    (VarEnvM.nest [] outer).add_variable pos1 name ty1
        = (VarEnvM.nest [] outer, [p])
      ∧ VarEnvM.get_type genv (VarEnvM.nest [] outer) name
        = VarEnvM.get_type genv outer name
      ∧ outer.add_variable pos2 name ty2 = (outer, [p]) := by
  have hg : outer.get_line_number name = some p := varenv_gln_of_own h
  refine ⟨?_, ?_, ?_⟩
  · simp [VarEnvM.add_variable, VarEnvM.get_line_number, lookupA, hg]
  · simp [VarEnvM.get_type, lookupA]
  · simp [VarEnvM.add_variable, hg]

/-- C3 witness: the amended theorem applied to a concrete outer scope
binding y at line 5. -/
theorem c3_redeclaration_checked_across_chain_witness :
    (VarEnvM.nest [] (VarEnvM.top [("y", 5, Ty.prim "long")])).add_variable
        9 "y" (Ty.prim "string")
      = (VarEnvM.nest [] (VarEnvM.top [("y", 5, Ty.prim "long")]), [5])
      ∧ VarEnvM.get_type builtinTypes
          (VarEnvM.nest [] (VarEnvM.top [("y", 5, Ty.prim "long")])) "y"
        = VarEnvM.get_type builtinTypes
            (VarEnvM.top [("y", 5, Ty.prim "long")]) "y"
      ∧ (VarEnvM.top [("y", 5, Ty.prim "long")]).add_variable 11 "y"
          (Ty.prim "double")
        = (VarEnvM.top [("y", 5, Ty.prim "long")], [5]) :=
  c3_redeclaration_checked_across_chain
    (VarEnvM.top [("y", 5, Ty.prim "long")]) builtinTypes "y" 5
    (Ty.prim "long") (Ty.prim "string") (Ty.prim "double") 9 11 (by decide)

/-- C5: adding a global type (respectively function) under an
already-bound name reports exactly one redefinition error citing the prior
declaration's stored position, leaves the table entry unchanged (the name
still looks up to the first declaration's object), and still returns a
freshly created object — bound to the new declaration and distinct from
every stored object. -/
theorem c5_global_redefinition_keeps_first (env : GEnvC5)
    (name1 name2 : String) (decl1 decl2 : DeclRef) (old1 old2 : GObj)
    (h1 : lookupA env.typesT name1 = some old1)
    (h2 : lookupA env.funcsT name2 = some old2)
    (hwf : env.WF) :
    (GlobalEnv_add_type env decl1 name1).2.2 = [old1.pos]
      ∧ lookupA (GlobalEnv_add_type env decl1 name1).1.typesT name1
        = some old1
      ∧ (GlobalEnv_add_type env decl1 name1).2.1.declId = some decl1.declId
      ∧ (GlobalEnv_add_type env decl1 name1).2.1.oid ≠ old1.oid
      ∧ (GlobalEnv_add_function env decl2 name2).2.2 = [old2.pos]
      ∧ lookupA (GlobalEnv_add_function env decl2 name2).1.funcsT name2
        = some old2
      ∧ (GlobalEnv_add_function env decl2 name2).2.1.declId
        = some decl2.declId
      ∧ (GlobalEnv_add_function env decl2 name2).2.1.oid ≠ old2.oid := by
  have ho1 : old1.oid < env.nextOid := by
    apply hwf
    exact List.mem_append_left _
      (List.mem_map_of_mem (fun kv => kv.2.oid) (lookupA_mem h1))
  have ho2 : old2.oid < env.nextOid := by
    apply hwf
    exact List.mem_append_right _
      (List.mem_map_of_mem (fun kv => kv.2.oid) (lookupA_mem h2))
  refine ⟨?_, ?_, ?_, ?_, ?_, ?_, ?_, ?_⟩
  · simp [GlobalEnv_add_type, h1]
  · simp [GlobalEnv_add_type, h1]
  · simp [GlobalEnv_add_type, h1]
  · simp only [GlobalEnv_add_type, h1]
    exact (Nat.ne_of_lt ho1).symm
  · simp [GlobalEnv_add_function, h2]
  · simp [GlobalEnv_add_function, h2]
  · simp [GlobalEnv_add_function, h2]
  · simp only [GlobalEnv_add_function, h2]
    exact (Nat.ne_of_lt ho2).symm

/-- C5 witness: the theorem applied to a concrete global environment with
type Foo (object 0, position 3) and function bar (object 1, position 4),
redeclared from declarations 20 (name position 9) and 21 (name position
8). -/
theorem c5_global_redefinition_keeps_first_witness :
    (GlobalEnv_add_type ⟨[("Foo", ⟨0, 3, some 10⟩)], [("bar", ⟨1, 4, some 11⟩)], 2⟩
        ⟨20, 9⟩ "Foo").2.2 = [3]
      ∧ lookupA (GlobalEnv_add_type
          ⟨[("Foo", ⟨0, 3, some 10⟩)], [("bar", ⟨1, 4, some 11⟩)], 2⟩
          ⟨20, 9⟩ "Foo").1.typesT "Foo" = some ⟨0, 3, some 10⟩
      ∧ (GlobalEnv_add_type
          ⟨[("Foo", ⟨0, 3, some 10⟩)], [("bar", ⟨1, 4, some 11⟩)], 2⟩
          ⟨20, 9⟩ "Foo").2.1.declId = some 20
      ∧ (GlobalEnv_add_type
          ⟨[("Foo", ⟨0, 3, some 10⟩)], [("bar", ⟨1, 4, some 11⟩)], 2⟩
          ⟨20, 9⟩ "Foo").2.1.oid ≠ 0
      ∧ (GlobalEnv_add_function
          ⟨[("Foo", ⟨0, 3, some 10⟩)], [("bar", ⟨1, 4, some 11⟩)], 2⟩
          ⟨21, 8⟩ "bar").2.2 = [4]
      ∧ lookupA (GlobalEnv_add_function
          ⟨[("Foo", ⟨0, 3, some 10⟩)], [("bar", ⟨1, 4, some 11⟩)], 2⟩
          ⟨21, 8⟩ "bar").1.funcsT "bar" = some ⟨1, 4, some 11⟩
      ∧ (GlobalEnv_add_function
          ⟨[("Foo", ⟨0, 3, some 10⟩)], [("bar", ⟨1, 4, some 11⟩)], 2⟩
          ⟨21, 8⟩ "bar").2.1.declId = some 21
      ∧ (GlobalEnv_add_function
          ⟨[("Foo", ⟨0, 3, some 10⟩)], [("bar", ⟨1, 4, some 11⟩)], 2⟩
          ⟨21, 8⟩ "bar").2.1.oid ≠ 1 :=
  c5_global_redefinition_keeps_first
    ⟨[("Foo", ⟨0, 3, some 10⟩)], [("bar", ⟨1, 4, some 11⟩)], 2⟩
    "Foo" "bar" ⟨20, 9⟩ ⟨21, 8⟩ ⟨0, 3, some 10⟩ ⟨1, 4, some 11⟩
    (by decide) (by decide)
    (by
      intro o ho
      simp [GEnvC5.oids] at ho
      rcases ho with rfl | rfl <;> decide)

/-- C7 counterexample: initialising a long[] array with two int arguments
reports exactly one error, not one per mismatching argument — there are
two mismatches but the loop returns after the first. -/
theorem c7_single_error_counterexample :
    ArrayType_check_args (Ty.prim "long") [Ty.prim "int", Ty.prim "int"]
        = (some false, 1)
      ∧ mismatchCount (Ty.prim "long") [Ty.prim "int", Ty.prim "int"]
        = 2 := by
  constructor
  · rfl
  · rfl

/-- C7 (amended): check_args on an array type compares each argument's
type to the element type by identity with no implicit conversion (an int
argument is rejected for a long[] array even though int is convertible to
long), and reports exactly one error — for the first mismatching argument
— returning False there; with no mismatch it reports nothing and falls
off the loop. -/
theorem c7_array_args_first_mismatch_only (elem : Ty) (args : List Ty) :
    (ArrayType_check_args elem args).2
        = (if ∃ a ∈ args, a ≠ elem then 1 else 0)
      ∧ (ArrayType_check_args elem args).1
        = (if ∃ a ∈ args, a ≠ elem then some false else none)
      ∧ (Ty.prim "int").is_convertible_to (Ty.prim "long") = true
      ∧ ArrayType_check_args (Ty.prim "long") [Ty.prim "int"]
        = (some false, 1) := by
  refine ⟨?_, ?_, by decide, by decide⟩
  all_goals
    induction args with
    | nil => simp [ArrayType_check_args]
    | cons a rest ih =>
        by_cases hae : a = elem
        · subst hae
          simpa [ArrayType_check_args] using ih
        · simp [ArrayType_check_args, hae]

/-- C8 counterexample: check_names on a block (from an enclosing
environment 5, allocator at 6) stores the fresh environment 6 in the block
and restores 5 on return; but type_check on that block leaves
ctx['local_env'] equal to the block's stored environment 6, not the
previous reference 5, after it returns. -/
theorem c8_block_type_check_does_not_restore_counterexample :
    scope_check_names
        (ScopeNode.blockScope 0
          (ScopeNode.consScope ScopeNode.stmtLeaf ScopeNode.nilScope))
        ⟨5, 6⟩
      = (ScopeNode.blockScope 6
          (ScopeNode.consScope ScopeNode.stmtLeaf ScopeNode.nilScope),
         ⟨5, 7⟩)
      ∧ scope_type_check
          (ScopeNode.blockScope 6
            (ScopeNode.consScope ScopeNode.stmtLeaf ScopeNode.nilScope))
          ⟨5, 7⟩
        = ⟨6, 7⟩
      ∧ (6 : Nat) ≠ 5 := by
  refine ⟨rfl, rfl, by decide⟩

/-- C8 (amended): in the check_names pass every scope-introducing node
(block, function declaration, struct declaration, for-loop header)
restores the previous lexical-environment reference in the shared context
before returning; but BlockNode.type_check installs the block's stored
environment and returns without restoring the previous reference. -/
theorem c8_check_names_restores_type_check_does_not :
    (∀ (n : ScopeNode) (ctx : ScopeCtx),
        ((scope_check_names n ctx).2).localEnv = ctx.localEnv)
      ∧ (∀ (stored : Nat) (ctx : ScopeCtx),
        scope_type_check (ScopeNode.blockScope stored ScopeNode.nilScope)
          ctx = { ctx with localEnv := stored }) := by
  constructor
  · intro n
    induction n with
    | blockScope stored stmts ih =>
        intro ctx
        simp [scope_check_names]
    | funcDeclScope body ih =>
        intro ctx
        simp [scope_check_names]
    | structDeclScope =>
        intro ctx
        simp [scope_check_names]
    | forScope initE testE updateE body ih1 ih2 ih3 ih4 =>
        intro ctx
        simp [scope_check_names]
    | stmtLeaf =>
        intro ctx
        simp [scope_check_names]
    | consScope h t ih1 ih2 =>
        intro ctx
        simp [scope_check_names, ih1, ih2]
    | nilScope =>
        intro ctx
        simp [scope_check_names]
  · intro stored ctx
    simp [scope_type_check]

end UCSpec
